import Mathlib

/-!
Shallow embedding of a small 6502-family CPU emulator (a JavaScript module
owning a 64KB memory, a register file, a flags record, stack helpers, an
opcode table and a fetch/decode/execute step), together with proofs about
its bus routing, flag packing, ALU semantics, branches, stack discipline,
subroutine linkage, register-width invariants and opcode-table collisions.

Translation conventions (JavaScript to Lean):
- The module-level mutable `memory`, `registers`, `flags`, `running` and
  `cycle` variables are gathered into one explicit `CPU` state record;
  every source function becomes a state-passing function.
- `memory` is a `Uint8Array(0x10000)`; it is modelled as `Nat → Nat`
  (every stored value is masked to a byte exactly where the source masks).
- JavaScript bitwise `x & 0xFF` / `x & 0xFFFF` on a non-negative number is
  kept as `&&&`; where the operand can be negative (32-bit two's
  complement semantics) the computation is done in `Int`, where `%` is
  Euclidean `Int.emod` and `/` is `Int.ediv`, which agree with the JS
  `& mask` / `>> k` behaviour on int32 values.
- The `console.log` halt messages of `brk` and of the unknown-opcode
  branch of `step` are modelled as a `Halt` datum stored in the state, so
  that the two halt causes and the values they report are observable.
- Calls to the external PPU module's `writeRegister(addr, value)` are
  modelled by appending the forwarded pair to a `ppuLog` list.
-/

namespace NES

/-- The seven status flag bits; the source's `flags` object stores each as
the number 0 or 1. -/
structure Flags where
  N : Nat
  V : Nat
  B : Nat
  D : Nat
  I : Nat
  Z : Nat
  C : Nat
deriving DecidableEq, Repr

/-- The two ways the run loop is halted, with the data the source logs:
`brk` logs a fixed message, the unknown-opcode branch of `step` logs the
opcode byte and `registers.PC - 1` (an unmasked JS subtraction, hence an
`Int`). -/
inductive Halt where
  | brkHalt : Halt
  | illegalOpcode (opcode : Nat) (reportedPC : Int) : Halt
deriving DecidableEq, Repr

/-- The whole mutable module state: registers (`A,X,Y,SP,PC,P`), the
`flags` object, the 64KB `memory`, the log of values forwarded to the PPU
register sink, the `running` flag, the halt cause and the `cycle`
counter. -/
structure CPU where
  A : Nat
  X : Nat
  Y : Nat
  SP : Nat
  PC : Nat
  P : Nat
  flags : Flags
  memory : Nat → Nat
  ppuLog : List (Nat × Int)
  running : Bool
  halt : Option Halt
  cycle : Nat

/-- Source `fetchByte()`: read `memory[registers.PC]` (the source does not
mask here; PC is kept in range by every update), then advance
`PC = (PC + 1) & 0xFFFF`. -/
def fetchByte (st : CPU) : Nat × CPU :=
  (st.memory st.PC, { st with PC := (st.PC + 1) &&& 0xFFFF })

/-- Source `fetchWord()`: two `fetchByte` calls, low byte first, combined
as `(hi << 8) | lo`. -/
def fetchWord (st : CPU) : Nat × CPU :=
  let (lo, st) := fetchByte st
  let (hi, st) := fetchByte st
  ((hi <<< 8) ||| lo, st)

/-- Source `fetchSignedByte()`: `value < 0x80 ? value : value - 0x100`. -/
def fetchSignedByte (st : CPU) : Int × CPU :=
  let (value, st) := fetchByte st
  (if value < 0x80 then (value : Int) else (value : Int) - 0x100, st)

/-- Source `readByte(addr)`: `memory[addr & 0xFFFF]`. -/
def readByte (st : CPU) (addr : Nat) : Nat :=
  st.memory (addr &&& 0xFFFF)

/-- Source `writeByte(addr, val)`: mask the address to 16 bits; a write in
`[0x2000, 0x3FFF]` is forwarded to the PPU sink as
`writeRegister(0x2000 + (addr % 8), val)` (note: `val` is forwarded as
given, unmasked) and nothing is stored; otherwise `memory[addr] = val &
0xFF` (the JS `& 0xFF` of a possibly negative int32 is Euclidean mod
256). -/
def writeByte (st : CPU) (addr : Nat) (val : Int) : CPU :=
  let addr := addr &&& 0xFFFF
  if 0x2000 ≤ addr ∧ addr ≤ 0x3FFF then
    { st with ppuLog := st.ppuLog ++ [(0x2000 + addr % 8, val)] }
  else
    { st with memory := Function.update st.memory addr (val % 256).toNat }

/-- Source `updateZeroNegativeFlags(value)`: `Z = value === 0 ? 1 : 0`,
`N = (value & 0x80) ? 1 : 0` (JS truthiness: nonzero means set). -/
def updateZeroNegativeFlags (st : CPU) (value : Nat) : CPU :=
  { st with flags := { st.flags with
      Z := if value = 0 then 1 else 0,
      N := if value &&& 0x80 ≠ 0 then 1 else 0 } }

/-- Source `pushByte(value)`: write at `0x0100 + SP`, then
`SP = (SP - 1) & 0xFF` (computed in `Int` because `SP - 1` can be `-1`). -/
def pushByte (st : CPU) (value : Int) : CPU :=
  let st := writeByte st (0x0100 + st.SP) value
  { st with SP := (((st.SP : Int) - 1) % 256).toNat }

/-- Source `pullByte()`: `SP = (SP + 1) & 0xFF`, then read at
`0x0100 + SP`. -/
def pullByte (st : CPU) : Nat × CPU :=
  let st := { st with SP := (st.SP + 1) &&& 0xFF }
  (readByte st (0x0100 + st.SP), st)

/-- Source `pushWord(value)`: push `(value >> 8) & 0xFF` (JS arithmetic
shift on int32 is Euclidean division by 256), then `value & 0xFF`. -/
def pushWord (st : CPU) (value : Int) : CPU :=
  let st := pushByte st ((value / 256) % 256)
  pushByte st (value % 256)

/-- Source `pullWord()`: pull low byte, pull high byte, combine as
`(hi << 8) | lo`. -/
def pullWord (st : CPU) : Nat × CPU :=
  let (lo, st) := pullByte st
  let (hi, st) := pullByte st
  ((hi <<< 8) ||| lo, st)

/-- Source `packFlags()`: `(N << 7) | (V << 6) | (1 << 5) | (B << 4) |
(D << 3) | (I << 2) | (Z << 1) | C`. -/
def packFlags (f : Flags) : Nat :=
  (f.N <<< 7) ||| (f.V <<< 6) ||| (1 <<< 5) ||| (f.B <<< 4) |||
    (f.D <<< 3) ||| (f.I <<< 2) ||| (f.Z <<< 1) ||| f.C

/-- Source `unpackFlags(p)`: extract bits 7,6,4,3,2,1,0 into
`N,V,B,D,I,Z,C` (bit 5 is not stored anywhere). -/
def unpackFlags (p : Nat) : Flags :=
  { N := (p >>> 7) &&& 1
    V := (p >>> 6) &&& 1
    B := (p >>> 4) &&& 1
    D := (p >>> 3) &&& 1
    I := (p >>> 2) &&& 1
    Z := (p >>> 1) &&& 1
    C := p &&& 1 }

/-- Source `reset()`: `SP = 0xFD`, `P = 0x24` (the stored packed-status
register; the `flags` object is not touched), and
`PC = (memory[0xFFFD] << 8) | memory[0xFFFC]`. -/
def reset (st : CPU) : CPU :=
  { st with
      SP := 0xFD
      P := 0x24
      PC := (st.memory 0xFFFD <<< 8) ||| st.memory 0xFFFC }

/-- Source `ldaImmediate()`. -/
def ldaImmediate (st : CPU) : CPU :=
  let (value, st) := fetchByte st
  let st := { st with A := value }
  updateZeroNegativeFlags st st.A

/-- Source `ldxImmediate()`. -/
def ldxImmediate (st : CPU) : CPU :=
  let (value, st) := fetchByte st
  let st := { st with X := value }
  updateZeroNegativeFlags st st.X

/-- Source `ldyImmediate()`. -/
def ldyImmediate (st : CPU) : CPU :=
  let (value, st) := fetchByte st
  let st := { st with Y := value }
  updateZeroNegativeFlags st st.Y

/-- Source `staAbsolute()`. -/
def staAbsolute (st : CPU) : CPU :=
  let (addr, st) := fetchWord st
  writeByte st addr (st.A : Int)

/-- Source `brk()`: logs "BRK reached. Halting." and stops the run loop;
the message is modelled as the `Halt.brkHalt` cause. -/
def brk (st : CPU) : CPU :=
  { st with running := false, halt := some Halt.brkHalt }

/-- Source `inx()`: `X = (X + 1) & 0xFF`. -/
def inx (st : CPU) : CPU :=
  let st := { st with X := (st.X + 1) &&& 0xFF }
  updateZeroNegativeFlags st st.X

/-- Source `iny()`. -/
def iny (st : CPU) : CPU :=
  let st := { st with Y := (st.Y + 1) &&& 0xFF }
  updateZeroNegativeFlags st st.Y

/-- Source `dex()`: `X = (X - 1) & 0xFF`, computed in `Int` because
`X - 1` can be `-1`. -/
def dex (st : CPU) : CPU :=
  let st := { st with X := ((((st.X : Int) - 1)) % 256).toNat }
  updateZeroNegativeFlags st st.X

/-- Source `dey()`. -/
def dey (st : CPU) : CPU :=
  let st := { st with Y := ((((st.Y : Int) - 1)) % 256).toNat }
  updateZeroNegativeFlags st st.Y

/-- Source `jmpAbsolute()`. -/
def jmpAbsolute (st : CPU) : CPU :=
  let (addr, st) := fetchWord st
  { st with PC := addr }

/-- Source `nop()`. -/
def nop (st : CPU) : CPU := st

/-- Source `staZeroPage()`. -/
def staZeroPage (st : CPU) : CPU :=
  let (addr, st) := fetchByte st
  writeByte st addr (st.A : Int)

/-- Source `stxZeroPage()`. -/
def stxZeroPage (st : CPU) : CPU :=
  let (addr, st) := fetchByte st
  writeByte st addr (st.X : Int)

/-- Source `styZeroPage()`. -/
def styZeroPage (st : CPU) : CPU :=
  let (addr, st) := fetchByte st
  writeByte st addr (st.Y : Int)

/-- The overflow test of the source's ADC handlers:
`(~(A ^ value) & (A ^ result)) & 0x80`. The JS `~` is 32-bit complement;
on the non-negative int32 operand it equals xor with `0xFFFFFFFF`. -/
def adcOverflowBits (a value result : Nat) : Nat :=
  ((0xFFFFFFFF ^^^ ((a ^^^ value) &&& 0xFFFFFFFF)) &&& (a ^^^ result)) &&& 0x80

/-- Source `adcImmediate()`: `result = A + value + C`;
`C = result > 0xFF`; `V` from the sign-overflow test; `A = result & 0xFF`;
then Z/N from the new A. -/
def adcImmediate (st : CPU) : CPU :=
  let (value, st) := fetchByte st
  let carryIn := st.flags.C
  let result := st.A + value + carryIn
  let overflow := adcOverflowBits st.A value result
  let st := { st with flags := { st.flags with
      C := if result > 0xFF then 1 else 0,
      V := if overflow ≠ 0 then 1 else 0 } }
  let st := { st with A := result &&& 0xFF }
  updateZeroNegativeFlags st st.A

/-- The overflow test of the source's SBC handlers:
`((A ^ result) & (A ^ value)) & 0x80`, where `result` can be negative; the
JS int32 xor sees its two's-complement image, whose low 32 bits are
`result.emod 2^32`. -/
def sbcOverflowBits (a value : Nat) (result : Int) : Nat :=
  ((a ^^^ (result % 0x100000000).toNat) &&& (a ^^^ value)) &&& 0x80

/-- Source `sbcImmediate()`: `result = A - value - (1 - C)` (an `Int`);
`C = result >= 0`; `V` from the sign test; `A = result & 0xFF`. -/
def sbcImmediate (st : CPU) : CPU :=
  let (value, st) := fetchByte st
  let carryIn := st.flags.C
  let result : Int := (st.A : Int) - value - (1 - carryIn)
  let overflow := sbcOverflowBits st.A value result
  let st := { st with flags := { st.flags with
      C := if result ≥ 0 then 1 else 0,
      V := if overflow ≠ 0 then 1 else 0 } }
  let st := { st with A := (result % 256).toNat }
  updateZeroNegativeFlags st st.A

/-- Source `andImmediate()`. -/
def andImmediate (st : CPU) : CPU :=
  let (value, st) := fetchByte st
  let st := { st with A := st.A &&& value }
  updateZeroNegativeFlags st st.A

/-- Source `oraImmediate()`. -/
def oraImmediate (st : CPU) : CPU :=
  let (value, st) := fetchByte st
  let st := { st with A := st.A ||| value }
  updateZeroNegativeFlags st st.A

/-- Source `eorImmediate()`. -/
def eorImmediate (st : CPU) : CPU :=
  let (value, st) := fetchByte st
  let st := { st with A := st.A ^^^ value }
  updateZeroNegativeFlags st st.A

/-- Source `cmpImmediate()`: `result = (A - value) & 0xFF` (in `Int`, the
difference can be negative); `C = A >= value`; Z/N from `result`. -/
def cmpImmediate (st : CPU) : CPU :=
  let (value, st) := fetchByte st
  let result := (((st.A : Int) - value) % 256).toNat
  { st with flags := { st.flags with
      C := if st.A ≥ value then 1 else 0,
      Z := if result = 0 then 1 else 0,
      N := if result &&& 0x80 ≠ 0 then 1 else 0 } }

/-- Source `bne()`: fetch the offset byte unconditionally; when `Z === 0`,
sign-extend it (`offset & 0x80` test) and add to PC mod 2^16 (in `Int`,
since the sum can be negative). -/
def bne (st : CPU) : CPU :=
  let (offset, st) := fetchByte st
  if st.flags.Z = 0 then
    let offset : Int := if offset &&& 0x80 ≠ 0 then (offset : Int) - 0x100 else offset
    { st with PC := (((st.PC : Int) + offset) % 0x10000).toNat }
  else st

/-- Source `beq()`: same as `bne` with condition `Z === 1`. -/
def beq (st : CPU) : CPU :=
  let (offset, st) := fetchByte st
  if st.flags.Z = 1 then
    let offset : Int := if offset &&& 0x80 ≠ 0 then (offset : Int) - 0x100 else offset
    { st with PC := (((st.PC : Int) + offset) % 0x10000).toNat }
  else st

/-- Source `incZeroPage()`. -/
def incZeroPage (st : CPU) : CPU :=
  let (addr, st) := fetchByte st
  let value := (readByte st addr + 1) &&& 0xFF
  let st := writeByte st addr (value : Int)
  updateZeroNegativeFlags st value

/-- Source `decZeroPage()`: `(readByte(addr) - 1) & 0xFF` in `Int`. -/
def decZeroPage (st : CPU) : CPU :=
  let (addr, st) := fetchByte st
  let value := ((((readByte st addr : Int) - 1)) % 256).toNat
  let st := writeByte st addr (value : Int)
  updateZeroNegativeFlags st value

/-- Source `aslAccumulator()`. -/
def aslAccumulator (st : CPU) : CPU :=
  let st := { st with flags := { st.flags with C := (st.A >>> 7) &&& 1 } }
  let st := { st with A := (st.A <<< 1) &&& 0xFF }
  updateZeroNegativeFlags st st.A

/-- Source `lsrAccumulator()`. -/
def lsrAccumulator (st : CPU) : CPU :=
  let st := { st with flags := { st.flags with C := st.A &&& 1 } }
  let st := { st with A := (st.A >>> 1) &&& 0xFF }
  updateZeroNegativeFlags st st.A

/-- Source `rolAccumulator()`: the vacated bit 0 is filled from the prior
carry; carry then takes the bit shifted out. -/
def rolAccumulator (st : CPU) : CPU :=
  let newCarry := (st.A >>> 7) &&& 1
  let st := { st with A := ((st.A <<< 1) ||| st.flags.C) &&& 0xFF }
  let st := { st with flags := { st.flags with C := newCarry } }
  updateZeroNegativeFlags st st.A

/-- Source `rorAccumulator()`. -/
def rorAccumulator (st : CPU) : CPU :=
  let newCarry := st.A &&& 1
  let st := { st with A := ((st.A >>> 1) ||| (st.flags.C <<< 7)) &&& 0xFF }
  let st := { st with flags := { st.flags with C := newCarry } }
  updateZeroNegativeFlags st st.A

/-- Source `txa()`. -/
def txa (st : CPU) : CPU :=
  let st := { st with A := st.X }
  updateZeroNegativeFlags st st.A

/-- Source `tya()`. -/
def tya (st : CPU) : CPU :=
  let st := { st with A := st.Y }
  updateZeroNegativeFlags st st.A

/-- Source `tax()`. -/
def tax (st : CPU) : CPU :=
  let st := { st with X := st.A }
  updateZeroNegativeFlags st st.X

/-- Source `tay()`. -/
def tay (st : CPU) : CPU :=
  let st := { st with Y := st.A }
  updateZeroNegativeFlags st st.Y

/-- Source `ldaZeroPage()`. -/
def ldaZeroPage (st : CPU) : CPU :=
  let (addr, st) := fetchByte st
  let st := { st with A := readByte st addr }
  updateZeroNegativeFlags st st.A

/-- Source `ldaAbsolute()`. -/
def ldaAbsolute (st : CPU) : CPU :=
  let (addr, st) := fetchWord st
  let st := { st with A := readByte st addr }
  updateZeroNegativeFlags st st.A

/-- Source `ldxZeroPage()`. -/
def ldxZeroPage (st : CPU) : CPU :=
  let (addr, st) := fetchByte st
  let st := { st with X := readByte st addr }
  updateZeroNegativeFlags st st.X

/-- Source `ldxAbsolute()`. -/
def ldxAbsolute (st : CPU) : CPU :=
  let (addr, st) := fetchWord st
  let st := { st with X := readByte st addr }
  updateZeroNegativeFlags st st.X

/-- Source `ldyZeroPage()`. -/
def ldyZeroPage (st : CPU) : CPU :=
  let (addr, st) := fetchByte st
  let st := { st with Y := readByte st addr }
  updateZeroNegativeFlags st st.Y

/-- Source `ldyAbsolute()`. -/
def ldyAbsolute (st : CPU) : CPU :=
  let (addr, st) := fetchWord st
  let st := { st with Y := readByte st addr }
  updateZeroNegativeFlags st st.Y

/-- Source `staAbsoluteX()`: the only handler that indexes an absolute
address by X. -/
def staAbsoluteX (st : CPU) : CPU :=
  let (base, st) := fetchWord st
  let addr := (base + st.X) &&& 0xFFFF
  writeByte st addr (st.A : Int)

/-- Source `adcZeroPage()`: same ALU body as `adcImmediate`, operand read
from the fetched zero-page address (no X indexing). -/
def adcZeroPage (st : CPU) : CPU :=
  let (addr, st) := fetchByte st
  let value := readByte st addr
  let carryIn := st.flags.C
  let result := st.A + value + carryIn
  let overflow := adcOverflowBits st.A value result
  let st := { st with flags := { st.flags with
      C := if result > 0xFF then 1 else 0,
      V := if overflow ≠ 0 then 1 else 0 } }
  let st := { st with A := result &&& 0xFF }
  updateZeroNegativeFlags st st.A

/-- Source `sbcZeroPage()`: same ALU body as `sbcImmediate`, operand read
from the fetched zero-page address (no indexing). -/
def sbcZeroPage (st : CPU) : CPU :=
  let (addr, st) := fetchByte st
  let value := readByte st addr
  let carryIn := st.flags.C
  let result : Int := (st.A : Int) - value - (1 - carryIn)
  let overflow := sbcOverflowBits st.A value result
  let st := { st with flags := { st.flags with
      C := if result ≥ 0 then 1 else 0,
      V := if overflow ≠ 0 then 1 else 0 } }
  let st := { st with A := (result % 256).toNat }
  updateZeroNegativeFlags st st.A

/-- Source `pha()`. -/
def pha (st : CPU) : CPU :=
  pushByte st (st.A : Int)

/-- Source `pla()`. -/
def pla (st : CPU) : CPU :=
  let (value, st) := pullByte st
  let st := { st with A := value }
  updateZeroNegativeFlags st st.A

/-- Source `php()`: pushes `packFlags() | 0x10`. -/
def php (st : CPU) : CPU :=
  pushByte st ((packFlags st.flags ||| 0x10 : Nat) : Int)

/-- Source `plp()`. -/
def plp (st : CPU) : CPU :=
  let (value, st) := pullByte st
  { st with flags := unpackFlags value }

/-- Source `jsr()`: fetch the 16-bit target, push `PC - 1` as a word
(in `Int`: the JS subtraction is unmasked and can be `-1`), jump. -/
def jsr (st : CPU) : CPU :=
  let (addr, st) := fetchWord st
  let st := pushWord st ((st.PC : Int) - 1)
  { st with PC := addr }

/-- Source `rts()`: `PC = (pullWord() + 1) & 0xFFFF`. -/
def rts (st : CPU) : CPU :=
  let (word, st) := pullWord st
  { st with PC := (word + 1) &&& 0xFFFF }

/-- Source `bitZeroPage()`. -/
def bitZeroPage (st : CPU) : CPU :=
  let (addr, st) := fetchByte st
  let val := readByte st addr
  { st with flags := { st.flags with
      Z := if st.A &&& val = 0 then 1 else 0,
      N := if val &&& 0x80 ≠ 0 then 1 else 0,
      V := if val &&& 0x40 ≠ 0 then 1 else 0 } }

/-- Source `ldaZeroPageX()`: the only zero-page handler that indexes by X
(wrapped to 8 bits). -/
def ldaZeroPageX (st : CPU) : CPU :=
  let (base, st) := fetchByte st
  let addr := (base + st.X) &&& 0xFF
  let st := { st with A := readByte st addr }
  updateZeroNegativeFlags st st.A

/-- Source `aslZeroPage()`. -/
def aslZeroPage (st : CPU) : CPU :=
  let (addr, st) := fetchByte st
  let value := readByte st addr
  let st := { st with flags := { st.flags with C := (value >>> 7) &&& 1 } }
  let result := (value <<< 1) &&& 0xFF
  let st := writeByte st addr (result : Int)
  updateZeroNegativeFlags st result

/-- Source `lsrZeroPage()`. -/
def lsrZeroPage (st : CPU) : CPU :=
  let (addr, st) := fetchByte st
  let value := readByte st addr
  let st := { st with flags := { st.flags with C := value &&& 1 } }
  let result := (value >>> 1) &&& 0xFF
  let st := writeByte st addr (result : Int)
  updateZeroNegativeFlags st result

/-- Source `txs()`: no flag update. -/
def txs (st : CPU) : CPU :=
  { st with SP := st.X }

/-- Source `bpl()`: fetch via `fetchSignedByte` unconditionally; add to PC
when `N === 0`. -/
def bpl (st : CPU) : CPU :=
  let (offset, st) := fetchSignedByte st
  if st.flags.N = 0 then
    { st with PC := (((st.PC : Int) + offset) % 0x10000).toNat }
  else st

/-- Source `adcAbsolute()`: same ALU body, operand read from the fetched
absolute address (no indexing). -/
def adcAbsolute (st : CPU) : CPU :=
  let (addr, st) := fetchWord st
  let value := readByte st addr
  let carryIn := st.flags.C
  let result := st.A + value + carryIn
  let overflow := adcOverflowBits st.A value result
  let st := { st with flags := { st.flags with
      C := if result > 0xFF then 1 else 0,
      V := if overflow ≠ 0 then 1 else 0 } }
  let st := { st with A := result &&& 0xFF }
  updateZeroNegativeFlags st st.A

/-- Source `sbcAbsolute()`: same ALU body, operand read from the fetched
absolute address (no indexing). -/
def sbcAbsolute (st : CPU) : CPU :=
  let (addr, st) := fetchWord st
  let value := readByte st addr
  let carryIn := st.flags.C
  let result : Int := (st.A : Int) - value - (1 - carryIn)
  let overflow := sbcOverflowBits st.A value result
  let st := { st with flags := { st.flags with
      C := if result ≥ 0 then 1 else 0,
      V := if overflow ≠ 0 then 1 else 0 } }
  let st := { st with A := (result % 256).toNat }
  updateZeroNegativeFlags st st.A

/-- Source `sec()`. -/
def sec (st : CPU) : CPU := { st with flags := { st.flags with C := 1 } }

/-- Source `sed()`. -/
def sed (st : CPU) : CPU := { st with flags := { st.flags with D := 1 } }

/-- Source `sei()`. -/
def sei (st : CPU) : CPU := { st with flags := { st.flags with I := 1 } }

/-- Source `cld()`. -/
def cld (st : CPU) : CPU := { st with flags := { st.flags with D := 0 } }

/-- Source `cli()`. -/
def cli (st : CPU) : CPU := { st with flags := { st.flags with I := 0 } }

/-- Source `clv()`. -/
def clv (st : CPU) : CPU := { st with flags := { st.flags with V := 0 } }

/-- Source `clc()`. -/
def clc (st : CPU) : CPU := { st with flags := { st.flags with C := 0 } }

/-- The source's `instructionTable` object literal, as a partial map from
opcode byte to handler. The duplicate mnemonic comments of the source are
kept: 0x75/0x7D are listed as the X-indexed ADC variants and 0x71/0x7E as
indexed SBC variants, yet all four are wired to the unindexed handlers. -/
def instructionTable (op : Nat) : Option (CPU → CPU) :=
  match op with
  | 0xA9 => some ldaImmediate -- LDA #imm
  | 0x8D => some staAbsolute  -- STA abs
  | 0x00 => some brk          -- BRK
  | 0xE8 => some inx          -- INX
  | 0xC8 => some iny          -- INY
  | 0xCA => some dex          -- DEX
  | 0x88 => some dey          -- DEY
  | 0x4C => some jmpAbsolute  -- JMP abs
  | 0xEA => some nop          -- NOP
  | 0xA2 => some ldxImmediate -- LDX #imm
  | 0xA0 => some ldyImmediate -- LDY #imm
  | 0x85 => some staZeroPage  -- STA zp
  | 0x86 => some stxZeroPage  -- STX zp
  | 0x87 => some styZeroPage  -- STY zp
  | 0x69 => some adcImmediate -- ADC #imm
  | 0xE9 => some sbcImmediate -- SBC #imm
  | 0x29 => some andImmediate -- AND #imm
  | 0x09 => some oraImmediate -- ORA #imm
  | 0x49 => some eorImmediate -- EOR #imm
  | 0x18 => some clc          -- CLC
  | 0xC9 => some cmpImmediate -- CMP #imm
  | 0xD0 => some bne          -- BNE rel
  | 0xF0 => some beq          -- BEQ rel
  | 0xE6 => some incZeroPage  -- INC zp
  | 0xC6 => some decZeroPage  -- DEC zp
  | 0x0A => some aslAccumulator
  | 0x4A => some lsrAccumulator
  | 0x2A => some rolAccumulator
  | 0x6A => some rorAccumulator
  | 0x8A => some txa
  | 0x98 => some tya
  | 0xAA => some tax
  | 0xA8 => some tay
  | 0xA5 => some ldaZeroPage  -- LDA zp
  | 0xAD => some ldaAbsolute  -- LDA abs
  | 0xB5 => some ldaZeroPageX -- LDA zp,X
  | 0xBD => some staAbsoluteX -- STA abs,X
  | 0x06 => some aslZeroPage  -- ASL zp
  | 0x46 => some lsrZeroPage  -- LSR zp
  | 0x9A => some txs          -- TXS
  | 0x60 => some rts          -- RTS
  | 0x48 => some pha          -- PHA
  | 0x68 => some pla          -- PLA
  | 0x08 => some php          -- PHP
  | 0x28 => some plp          -- PLP
  | 0x24 => some bitZeroPage  -- BIT zp
  | 0x38 => some sec          -- SEC
  | 0xF8 => some sed          -- SED
  | 0xD8 => some cld          -- CLD
  | 0x78 => some sei          -- SEI
  | 0x58 => some cli          -- CLI
  | 0xB8 => some clv          -- CLV
  | 0x10 => some bpl          -- BPL rel
  | 0x20 => some jsr          -- JSR abs
  | 0xA6 => some ldxZeroPage  -- LDX zp
  | 0xAE => some ldxAbsolute  -- LDX abs
  | 0xB6 => some ldyZeroPage  -- LDY zp
  | 0xBE => some ldyAbsolute  -- LDY abs
  | 0x65 => some adcZeroPage  -- ADC zp
  | 0x75 => some adcZeroPage  -- ADC zp,X
  | 0x6D => some adcAbsolute  -- ADC abs
  | 0x7D => some adcAbsolute  -- ADC abs,X
  | 0x61 => some sbcZeroPage  -- SBC zp
  | 0x71 => some sbcZeroPage  -- SBC zp,Y
  | 0x6E => some sbcAbsolute  -- SBC abs
  | 0x7E => some sbcAbsolute  -- SBC abs,X
  | _ => none

/-- Source `step()`: `cycle++`, fetch the opcode, look it up; execute it
when mapped, otherwise log "Unknown opcode" with the opcode byte and
`registers.PC - 1` (unmasked JS subtraction) and stop the run loop. The
log message is modelled as the `Halt.illegalOpcode` cause. -/
def step (st : CPU) : CPU :=
  let st := { st with cycle := st.cycle + 1 }
  let (opcode, st) := fetchByte st
  match instructionTable opcode with
  | some instruction => instruction st
  | none =>
      { st with running := false,
                halt := some (Halt.illegalOpcode opcode ((st.PC : Int) - 1)) }

/-- The module-level initial state: zeroed `Uint8Array` memory, the
initial register literals (`SP=0xFD`, `PC=0x8000`, `P=0x24`) and the
initial flag literals (`I=1`, rest 0), `running = true`. Used as the base
of the concrete states below. -/
def cpu0 : CPU :=
  { A := 0x00
    X := 0x00
    Y := 0x00
    SP := 0xFD
    PC := 0x8000
    P := 0x24
    flags := { N := 0, V := 0, B := 0, D := 0, I := 1, Z := 0, C := 0 }
    memory := fun _ => 0
    ppuLog := []
    running := true
    halt := none
    cycle := 0 }

/-- The sign extension performed by `fetchSignedByte` and inlined (as an
`offset & 0x80` test) in `bne`/`beq`:
`value < 0x80 ? value : value - 0x100`. -/
def signExtend (value : Nat) : Int :=
  if value < 0x80 then (value : Int) else (value : Int) - 0x100

/-- Concrete state for the ADC overflow scenario: `A=0x7F`, `C=0`, and the
operand byte `0x01` at every address. -/
def adcExample : CPU :=
  { cpu0 with A := 0x7F, memory := fun _ => 0x01 }

/-- Concrete state whose carry flag is set before `reset()`. -/
def resetCarryExample : CPU :=
  { cpu0 with flags := { N := 0, V := 0, B := 0, D := 0, I := 1, Z := 0, C := 1 } }

/-- Program image for branch scenarios: the given opcode at `0x8000`, the
offset byte `0xFB` (that is, `-5`) at `0x8001`, `0xEA` elsewhere. -/
def branchExampleMemory (op : Nat) : Nat → Nat :=
  fun a => if a = 0x8000 then op else if a = 0x8001 then 0xFB else 0xEA

/-- BNE at `0x8000` with `Z = 1` (condition false). -/
def bneNotTakenExample : CPU :=
  { cpu0 with memory := branchExampleMemory 0xD0,
              flags := { cpu0.flags with Z := 1 } }

/-- BNE at `0x8000` with `Z = 0` (condition true). -/
def bneTakenExample : CPU :=
  { cpu0 with memory := branchExampleMemory 0xD0 }

/-- BEQ at `0x8000` with `Z = 0` (condition false). -/
def beqNotTakenExample : CPU :=
  { cpu0 with memory := branchExampleMemory 0xF0 }

/-- BEQ at `0x8000` with `Z = 1` (condition true). -/
def beqTakenExample : CPU :=
  { cpu0 with memory := branchExampleMemory 0xF0,
              flags := { cpu0.flags with Z := 1 } }

/-- BPL at `0x8000` with `N = 1` (condition false). -/
def bplNotTakenExample : CPU :=
  { cpu0 with memory := branchExampleMemory 0x10,
              flags := { cpu0.flags with N := 1 } }

/-- BPL at `0x8000` with `N = 0` (condition true). -/
def bplTakenExample : CPU :=
  { cpu0 with memory := branchExampleMemory 0x10 }

/-- The unmapped opcode byte `0xFF` everywhere, fetched at `PC = 0xFFFF`
(the top of the address space, where the fetch wraps PC to 0). -/
def illegalAtTopExample : CPU :=
  { cpu0 with PC := 0xFFFF, memory := fun _ => 0xFF }

/-- The unmapped opcode byte `0xFF` everywhere, fetched at `PC = 0x8000`. -/
def illegalExample : CPU :=
  { cpu0 with memory := fun _ => 0xFF }

/-- Concrete state for the PHA/PLA round trip, with `SP = 0` so the stack
pointer wraps. -/
def phaExample : CPU :=
  { cpu0 with A := 0x42, SP := 0 }

/-- Program image for the JSR/RTS scenario: `JSR $1234` at `0x8000`
(`0x20 0x34 0x12`) and an RTS opcode (`0x60`) at the target `0x1234`. -/
def jsrExample : CPU :=
  { cpu0 with memory := fun a =>
      if a = 0x8000 then 0x20 else if a = 0x8001 then 0x34 else
      if a = 0x8002 then 0x12 else if a = 0x1234 then 0x60 else 0 }

/-- All registers, flags and memory bytes of `st2` agree with `st1`; used
to state that an operation leaves everything but PC (and bookkeeping)
alone. -/
def SameRegsFlagsMem (st2 st1 : CPU) : Prop :=
  st2.A = st1.A ∧ st2.X = st1.X ∧ st2.Y = st1.Y ∧ st2.SP = st1.SP ∧
    st2.flags = st1.flags ∧ ∀ a, st2.memory a = st1.memory a

/-- Well-formedness of a CPU state, as the spec's data-model invariant:
`A`, `X`, `Y`, `SP` are bytes, `PC` is a 16-bit word, and every cell of
the `Uint8Array` memory is a byte. -/
def Wf (st : CPU) : Prop :=
  st.A < 256 ∧ st.X < 256 ∧ st.Y < 256 ∧ st.SP < 256 ∧ st.PC < 65536 ∧
    ∀ a, st.memory a < 256

/-! ## Arithmetic bridges for the JS bit masks -/

/-- The byte mask `x & 0xFF` is reduction mod 256. -/
@[simp] theorem and255 (x : Nat) : x &&& 0xFF = x % 256 := by
  have h := Nat.and_pow_two_sub_one_eq_mod x 8
  norm_num at h
  exact h

/-- The word mask `x & 0xFFFF` is reduction mod 2^16. -/
@[simp] theorem and65535 (x : Nat) : x &&& 0xFFFF = x % 65536 := by
  have h := Nat.and_pow_two_sub_one_eq_mod x 16
  norm_num at h
  exact h

/-- Combining a high and a low byte with `(hi << 8) | lo` is the
little-endian word `256 * hi + lo`. -/
theorem lor_byte (hi : Nat) {lo : Nat} (h : lo < 256) :
    (hi <<< 8) ||| lo = 256 * hi + lo := by
  have hb : lo < 2 ^ 8 := by norm_num; exact h
  have h2 := Nat.mul_add_lt_is_or (b := lo) (i := 8) hb hi
  rw [Nat.shiftLeft_eq, Nat.mul_comm hi (2 ^ 8), ← h2]

set_option maxRecDepth 2048 in
/-- On a byte, the sign-bit test `value & 0x80` succeeds exactly for
values at least 128. -/
theorem and128_byte : ∀ b < 256, (b &&& 0x80 ≠ 0) = (0x80 ≤ b) := by decide

/-! ## C6: flag pack/unpack round trip -/

/-- C6: for every flag state with each of N, V, B, D, I, Z, C equal to 0
or 1, `unpackFlags (packFlags f)` restores all seven flags exactly, and
the packed byte always has bit 5 set. -/
theorem c6_flags_roundtrip : ∀ f : Flags,
    f.N ≤ 1 → f.V ≤ 1 → f.B ≤ 1 → f.D ≤ 1 → f.I ≤ 1 → f.Z ≤ 1 → f.C ≤ 1 →
    unpackFlags (packFlags f) = f ∧ Nat.testBit (packFlags f) 5 = true := by
  intro f hN hV hB hD hI hZ hC
  obtain ⟨N, V, B, D, I, Z, C⟩ := f
  rcases Nat.le_one_iff_eq_zero_or_eq_one.mp hN with rfl | rfl <;>
  rcases Nat.le_one_iff_eq_zero_or_eq_one.mp hV with rfl | rfl <;>
  rcases Nat.le_one_iff_eq_zero_or_eq_one.mp hB with rfl | rfl <;>
  rcases Nat.le_one_iff_eq_zero_or_eq_one.mp hD with rfl | rfl <;>
  rcases Nat.le_one_iff_eq_zero_or_eq_one.mp hI with rfl | rfl <;>
  rcases Nat.le_one_iff_eq_zero_or_eq_one.mp hZ with rfl | rfl <;>
  rcases Nat.le_one_iff_eq_zero_or_eq_one.mp hC with rfl | rfl <;>
  exact ⟨by decide, by decide⟩

/-- Witness for C6 at the all-ones flag state. -/
theorem c6_flags_roundtrip_witness :
    unpackFlags (packFlags ⟨1, 1, 1, 1, 1, 1, 1⟩) = ⟨1, 1, 1, 1, 1, 1, 1⟩ ∧
    Nat.testBit (packFlags ⟨1, 1, 1, 1, 1, 1, 1⟩) 5 = true :=
  c6_flags_roundtrip ⟨1, 1, 1, 1, 1, 1, 1⟩ (by decide) (by decide) (by decide)
    (by decide) (by decide) (by decide) (by decide)

/-! ## C1: reset -/

/-- C1 (amended): after `reset()` the stack pointer is `0xFD`, the stored
packed-status register `P` is `0x24`, and `PC` is the little-endian word
at `0xFFFC`/`0xFFFD`; the individual flag bits — and therefore
`packFlags()` — are left unchanged, not forced to `0x24`. -/
theorem c1_reset_amended : ∀ st : CPU, st.memory 0xFFFC < 256 →
    (reset st).SP = 0xFD ∧ (reset st).P = 0x24 ∧
    (reset st).PC = 256 * st.memory 0xFFFD + st.memory 0xFFFC ∧
    (reset st).flags = st.flags := by
  intro st h
  exact ⟨rfl, rfl, lor_byte _ h, rfl⟩

/-- Witness for C1 at the initial state. -/
theorem c1_reset_amended_witness :
    (reset cpu0).SP = 0xFD ∧ (reset cpu0).P = 0x24 ∧
    (reset cpu0).PC = 256 * cpu0.memory 0xFFFD + cpu0.memory 0xFFFC ∧
    (reset cpu0).flags = cpu0.flags :=
  c1_reset_amended cpu0 (by decide)

/-- Counterexample to C1 as stated: from a prior state whose carry flag is
set, `packFlags()` after `reset()` returns `0x25`, not `0x24` — `reset`
writes the register-file byte `P` but never the `flags` object. -/
theorem c1_reset_counterexample :
    packFlags (reset resetCarryExample).flags = 0x25 ∧ (0x25 : Nat) ≠ 0x24 := by
  constructor
  · decide
  · decide

/-! ## C2: bus write routing -/

/-- C2 (amended): the bus write masks the address to 16 bits; a write in
the PPU window `[0x2000, 0x3FFF]` forwards exactly one pair
`(0x2000 + addr % 8, val)` to the sink — the folded address always lies in
`0x2000..0x2007`, and `val` is forwarded as given, not masked to 8 bits —
and leaves every memory byte unchanged; any other write stores the 8-bit
masked value at the masked address and does not invoke the sink. -/
theorem c2_writeByte_amended : ∀ (st : CPU) (addr : Nat) (val : Int),
    (0x2000 ≤ addr % 65536 ∧ addr % 65536 ≤ 0x3FFF →
      (writeByte st addr val).ppuLog =
        st.ppuLog ++ [(0x2000 + addr % 65536 % 8, val)] ∧
      0x2000 ≤ 0x2000 + addr % 65536 % 8 ∧
      0x2000 + addr % 65536 % 8 ≤ 0x2007 ∧
      ∀ a, (writeByte st addr val).memory a = st.memory a) ∧
    (¬(0x2000 ≤ addr % 65536 ∧ addr % 65536 ≤ 0x3FFF) →
      (writeByte st addr val).memory (addr % 65536) = (val % 256).toNat ∧
      (∀ a, a ≠ addr % 65536 → (writeByte st addr val).memory a = st.memory a) ∧
      (writeByte st addr val).ppuLog = st.ppuLog) := by
  intro st addr val
  constructor
  · intro h
    simp only [writeByte, and65535]
    rw [if_pos h]
    exact ⟨rfl, by omega, by omega, fun a => rfl⟩
  · intro h
    simp only [writeByte, and65535]
    rw [if_neg h]
    refine ⟨Function.update_same _ _ _, fun a ha => Function.update_noteq ha _ _, rfl⟩

/-- Witness for C2: a PPU-window write at `0x2000` and a plain store at
`0x0010`. -/
theorem c2_writeByte_amended_witness :
    (writeByte cpu0 0x2000 5).ppuLog =
      cpu0.ppuLog ++ [(0x2000 + 0x2000 % 65536 % 8, 5)] ∧
    (writeByte cpu0 0x0010 5).memory (0x0010 % 65536) = ((5 : Int) % 256).toNat :=
  ⟨((c2_writeByte_amended cpu0 0x2000 5).1 (by decide)).1,
   ((c2_writeByte_amended cpu0 0x0010 5).2 (by decide)).1⟩

/-- Counterexample to C2 as stated: the write of the value 256 to the PPU
window forwards the raw value 256 to the sink, not the 8-bit-masked value
`256 % 256 = 0` — the source's `writeRegister(0x2000 + (addr % 8), val)`
call omits the `& 0xFF` mask. -/
theorem c2_writeByte_counterexample :
    (writeByte cpu0 0x2000 256).ppuLog = [((0x2000 : Nat), (256 : Int))] ∧
    (256 : Int) ≠ 256 % 256 := by
  constructor
  · decide
  · decide

/-! ## C3: ADC immediate -/

/-- C3: for every state, ADC immediate sets `A` to
`(A + mem + C) mod 256`, sets carry exactly when `A + mem + C > 0xFF`,
sets overflow exactly when `(~(A ^ mem) & (A ^ (A + mem + C))) & 0x80` is
nonzero, and updates Z and N from the new `A`; in particular, from
`A = 0x7F`, `C = 0` and operand `0x01` it produces `A = 0x80`, `V = 1`,
`N = 1`, `C = 0`, `Z = 0`. -/
theorem c3_adcImmediate :
    (∀ st : CPU,
      (adcImmediate st).A = (st.A + st.memory st.PC + st.flags.C) % 256 ∧
      ((adcImmediate st).flags.C = 1 ↔
        st.A + st.memory st.PC + st.flags.C > 0xFF) ∧
      ((adcImmediate st).flags.V = 1 ↔
        adcOverflowBits st.A (st.memory st.PC)
          (st.A + st.memory st.PC + st.flags.C) ≠ 0) ∧
      (adcImmediate st).flags.Z =
        (if (st.A + st.memory st.PC + st.flags.C) % 256 = 0 then 1 else 0) ∧
      (adcImmediate st).flags.N =
        (if (st.A + st.memory st.PC + st.flags.C) % 256 &&& 0x80 ≠ 0
         then 1 else 0)) ∧
    (adcImmediate adcExample).A = 0x80 ∧
    (adcImmediate adcExample).flags.V = 1 ∧
    (adcImmediate adcExample).flags.N = 1 ∧
    (adcImmediate adcExample).flags.C = 0 ∧
    (adcImmediate adcExample).flags.Z = 0 := by
  refine ⟨fun st => ⟨?_, ?_, ?_, ?_, ?_⟩, by decide, by decide, by decide,
    by decide, by decide⟩ <;>
    simp only [adcImmediate, fetchByte, updateZeroNegativeFlags, and255] <;>
    split <;> simp_all

/-! ## C4: branches -/

/-- C4: for each of BNE, BEQ and BPL — when the branch condition is false
the offset byte is still consumed (PC ends at opcode address + 2 mod 2^16)
and registers, flags and memory are untouched; when the condition is true,
PC ends at opcode address + 2 + sign-extended offset, mod 2^16. -/
theorem c4_branches :
    (∀ st : CPU, st.memory st.PC = 0xD0 → st.flags.Z ≠ 0 →
      (step st).PC = (st.PC + 2) % 65536 ∧ SameRegsFlagsMem (step st) st) ∧
    (∀ st : CPU, st.memory st.PC = 0xD0 → st.flags.Z = 0 →
      st.memory ((st.PC + 1) % 65536) < 256 →
      (step st).PC = (((st.PC : Int) + 2 +
        signExtend (st.memory ((st.PC + 1) % 65536))) % 65536).toNat) ∧
    (∀ st : CPU, st.memory st.PC = 0xF0 → st.flags.Z ≠ 1 →
      (step st).PC = (st.PC + 2) % 65536 ∧ SameRegsFlagsMem (step st) st) ∧
    (∀ st : CPU, st.memory st.PC = 0xF0 → st.flags.Z = 1 →
      st.memory ((st.PC + 1) % 65536) < 256 →
      (step st).PC = (((st.PC : Int) + 2 +
        signExtend (st.memory ((st.PC + 1) % 65536))) % 65536).toNat) ∧
    (∀ st : CPU, st.memory st.PC = 0x10 → st.flags.N ≠ 0 →
      (step st).PC = (st.PC + 2) % 65536 ∧ SameRegsFlagsMem (step st) st) ∧
    (∀ st : CPU, st.memory st.PC = 0x10 → st.flags.N = 0 →
      (step st).PC = (((st.PC : Int) + 2 +
        signExtend (st.memory ((st.PC + 1) % 65536))) % 65536).toNat) := by
  have htabD0 : instructionTable 0xD0 = some bne := rfl
  have htabF0 : instructionTable 0xF0 = some beq := rfl
  have htab10 : instructionTable 0x10 = some bpl := rfl
  refine ⟨?_, ?_, ?_, ?_, ?_, ?_⟩
  · intro st hop hZ
    simp only [step, fetchByte, hop, htabD0, bne, and65535]
    rw [if_neg hZ]
    dsimp only
    exact ⟨by omega, rfl, rfl, rfl, rfl, rfl, fun a => rfl⟩
  · intro st hop hZ hb
    simp only [step, fetchByte, hop, htabD0, bne, and65535]
    rw [if_pos hZ]
    simp only [and128_byte _ hb]
    rcases Nat.lt_or_ge (st.memory ((st.PC + 1) % 65536)) 0x80 with h | h
    · rw [if_neg (by omega), signExtend, if_pos h]
      omega
    · rw [if_pos h, signExtend, if_neg (by omega)]
      omega
  · intro st hop hZ
    simp only [step, fetchByte, hop, htabF0, beq, and65535]
    rw [if_neg hZ]
    dsimp only
    exact ⟨by omega, rfl, rfl, rfl, rfl, rfl, fun a => rfl⟩
  · intro st hop hZ hb
    simp only [step, fetchByte, hop, htabF0, beq, and65535]
    rw [if_pos hZ]
    simp only [and128_byte _ hb]
    rcases Nat.lt_or_ge (st.memory ((st.PC + 1) % 65536)) 0x80 with h | h
    · rw [if_neg (by omega), signExtend, if_pos h]
      omega
    · rw [if_pos h, signExtend, if_neg (by omega)]
      omega
  · intro st hop hN
    simp only [step, fetchByte, hop, htab10, bpl, fetchSignedByte, and65535]
    rw [if_neg hN]
    dsimp only
    exact ⟨by omega, rfl, rfl, rfl, rfl, rfl, fun a => rfl⟩
  · intro st hop hN
    simp only [step, fetchByte, hop, htab10, bpl, fetchSignedByte, and65535,
      signExtend]
    rw [if_pos hN]
    dsimp only
    rcases Nat.lt_or_ge (st.memory ((st.PC + 1) % 65536)) 0x80 with h | h
    · rw [if_pos h]
      omega
    · rw [if_neg (by omega)]
      omega

/-- Witness for C4: the six branch scenarios at `0x8000` with offset byte
`0xFB`. -/
theorem c4_branches_witness :
    ((step bneNotTakenExample).PC = (bneNotTakenExample.PC + 2) % 65536 ∧
      SameRegsFlagsMem (step bneNotTakenExample) bneNotTakenExample) ∧
    (step bneTakenExample).PC = (((bneTakenExample.PC : Int) + 2 +
      signExtend (bneTakenExample.memory
        ((bneTakenExample.PC + 1) % 65536))) % 65536).toNat ∧
    ((step beqNotTakenExample).PC = (beqNotTakenExample.PC + 2) % 65536 ∧
      SameRegsFlagsMem (step beqNotTakenExample) beqNotTakenExample) ∧
    (step beqTakenExample).PC = (((beqTakenExample.PC : Int) + 2 +
      signExtend (beqTakenExample.memory
        ((beqTakenExample.PC + 1) % 65536))) % 65536).toNat ∧
    ((step bplNotTakenExample).PC = (bplNotTakenExample.PC + 2) % 65536 ∧
      SameRegsFlagsMem (step bplNotTakenExample) bplNotTakenExample) ∧
    (step bplTakenExample).PC = (((bplTakenExample.PC : Int) + 2 +
      signExtend (bplTakenExample.memory
        ((bplTakenExample.PC + 1) % 65536))) % 65536).toNat :=
  ⟨c4_branches.1 bneNotTakenExample (by decide) (by decide),
   c4_branches.2.1 bneTakenExample (by decide) (by decide) (by decide),
   c4_branches.2.2.1 beqNotTakenExample (by decide) (by decide),
   c4_branches.2.2.2.1 beqTakenExample (by decide) (by decide) (by decide),
   c4_branches.2.2.2.2.1 bplNotTakenExample (by decide) (by decide),
   c4_branches.2.2.2.2.2 bplTakenExample (by decide) (by decide)⟩

/-! ## C5: illegal opcode halt -/

/-- C5 (amended): fetching an opcode with no table entry halts the run,
leaves every register, flag and memory byte untouched apart from the PC
increment of the fetch, and reports a halt cause distinct from the BRK
halt, carrying the opcode byte and `PC - 1` computed after the fetch;
that reported value equals the PC at which the byte was fetched whenever
that PC is below 0xFFFF (at 0xFFFF the unmasked subtraction yields -1). -/
theorem c5_illegal_opcode_amended : ∀ st : CPU,
    instructionTable (st.memory st.PC) = none →
    (step st).running = false ∧
    (step st).halt = some (Halt.illegalOpcode (st.memory st.PC)
      ((((st.PC + 1) % 65536 : Nat) : Int) - 1)) ∧
    (st.PC < 0xFFFF → (((st.PC + 1) % 65536 : Nat) : Int) - 1 = st.PC) ∧
    (step st).PC = (st.PC + 1) % 65536 ∧
    SameRegsFlagsMem (step st) st ∧
    (∀ st2 : CPU, st2.memory st2.PC = 0x00 →
      (step st2).halt = some Halt.brkHalt) ∧
    (∀ op pc, Halt.illegalOpcode op pc ≠ Halt.brkHalt) := by
  intro st htab
  simp only [step, fetchByte, and65535, htab]
  refine ⟨trivial, trivial, by omega, trivial,
    ⟨rfl, rfl, rfl, rfl, rfl, fun a => rfl⟩, ?_, ?_⟩
  · intro st2 hop
    have htb : instructionTable 0x00 = some brk := rfl
    simp only [step, fetchByte, hop, htb, brk]
  · intro op pc h
    exact Halt.noConfusion h

/-- Witness for C5 with the unmapped byte 0xFF fetched at `0x8000`. -/
theorem c5_illegal_opcode_amended_witness :
    (step illegalExample).running = false ∧
    (step illegalExample).halt = some (Halt.illegalOpcode
      (illegalExample.memory illegalExample.PC)
      ((((illegalExample.PC + 1) % 65536 : Nat) : Int) - 1)) ∧
    (illegalExample.PC < 0xFFFF →
      (((illegalExample.PC + 1) % 65536 : Nat) : Int) - 1 = illegalExample.PC) ∧
    (step illegalExample).PC = (illegalExample.PC + 1) % 65536 ∧
    SameRegsFlagsMem (step illegalExample) illegalExample ∧
    (∀ st2 : CPU, st2.memory st2.PC = 0x00 →
      (step st2).halt = some Halt.brkHalt) ∧
    (∀ op pc, Halt.illegalOpcode op pc ≠ Halt.brkHalt) :=
  c5_illegal_opcode_amended illegalExample rfl

/-- Counterexample to C5 as stated: when the unmapped byte is fetched at
`PC = 0xFFFF` the diagnostic carries `-1` (the unmasked `PC - 1` after the
wrapped fetch), not the fetch address 0xFFFF. -/
theorem c5_illegal_opcode_counterexample :
    (step illegalAtTopExample).halt =
      some (Halt.illegalOpcode 0xFF (-1)) ∧ (-1 : Int) ≠ (0xFFFF : Int) := by
  constructor
  · decide
  · decide

/-! ## C8: JSR/RTS linkage -/

/-- C8: executing the JSR at address p jumps to the little-endian word at
p+1/p+2 and pushes the word p+2 high byte first (high byte at
`0x0100 + SP`, low byte below it); an RTS executed next with those two
stack bytes undisturbed lands at (p + 3) mod 2^16, the instruction after
the JSR. -/
theorem c8_jsr_rts : ∀ st : CPU,
    st.memory st.PC = 0x20 → st.SP < 256 → st.PC < 65536 →
    st.memory ((st.PC + 1) % 65536) < 256 →
    (step st).PC = 256 * st.memory ((st.PC + 2) % 65536) +
      st.memory ((st.PC + 1) % 65536) ∧
    (step st).memory (0x0100 + st.SP) = (st.PC + 2) % 65536 / 256 ∧
    (step st).memory (0x0100 + (st.SP + 255) % 256) = (st.PC + 2) % 256 ∧
    (step st).SP = (st.SP + 254) % 256 ∧
    ((step st).memory ((step st).PC) = 0x60 →
      (step (step st)).PC = (st.PC + 3) % 65536) := by
  intro st hop hSP hPC hlo
  have htab : instructionTable 0x20 = some jsr := rfl
  have hc1 : ¬(0x2000 ≤ (0x0100 + st.SP) % 65536 ∧
      (0x0100 + st.SP) % 65536 ≤ 0x3FFF) := by omega
  have hc2 : ¬(0x2000 ≤ (0x0100 + (((st.SP : Int) - 1) % 256).toNat) % 65536 ∧
      (0x0100 + (((st.SP : Int) - 1) % 256).toNat) % 65536 ≤ 0x3FFF) := by
    omega
  have hmain : (step st).PC = 256 * st.memory ((st.PC + 2) % 65536) +
      st.memory ((st.PC + 1) % 65536) ∧
      (step st).memory (0x0100 + st.SP) = (st.PC + 2) % 65536 / 256 ∧
      (step st).memory (0x0100 + (st.SP + 255) % 256) = (st.PC + 2) % 256 ∧
      (step st).SP = (st.SP + 254) % 256 := by
    simp only [step, fetchByte, hop, htab, jsr, fetchWord, pushWord, pushByte,
      writeByte, and65535]
    rw [if_neg hc1, if_neg hc2]
    dsimp only
    have hidx : ((st.PC + 1) % 65536 + 1) % 65536 = (st.PC + 2) % 65536 := by
      omega
    have ha1 : (0x0100 + st.SP) % 65536 = 0x0100 + st.SP :=
      Nat.mod_eq_of_lt (by omega)
    have ha2 : (0x0100 + (((st.SP : Int) - 1) % 256).toNat) % 65536 =
        0x0100 + (((st.SP : Int) - 1) % 256).toNat :=
      Nat.mod_eq_of_lt (by omega)
    have hne : (0x0100 + st.SP : Nat) ≠
        0x0100 + (((st.SP : Int) - 1) % 256).toNat := by omega
    have hq : 0x0100 + (st.SP + 255) % 256 =
        0x0100 + (((st.SP : Int) - 1) % 256).toNat := by omega
    rw [hidx, ha1, ha2, hq]
    refine ⟨lor_byte _ hlo, ?_, ?_, by omega⟩
    · rw [Function.update_noteq (by omega), Function.update_same]
      omega
    · rw [Function.update_same]
      omega
  obtain ⟨h1, h2, h3, h4⟩ := hmain
  refine ⟨h1, h2, h3, h4, ?_⟩
  generalize hS : step st = S at h1 h2 h3 h4 ⊢
  intro hrts
  have htab60 : instructionTable 0x60 = some rts := rfl
  simp only [step, fetchByte, hrts, htab60, rts, pullWord, pullByte, readByte,
    and65535, and255]
  rw [h4]
  have e1 : (0x0100 + ((st.SP + 254) % 256 + 1) % 256) % 65536 =
      0x0100 + (st.SP + 255) % 256 := by omega
  have e2 : (0x0100 + (((st.SP + 254) % 256 + 1) % 256 + 1) % 256) % 65536 =
      0x0100 + st.SP := by omega
  rw [e1, e2, h2, h3]
  rw [lor_byte _ (by omega)]
  omega

/-- Witness for C8: `JSR $1234` at `0x8000` with an RTS at the target;
the return lands at `0x8003`. -/
theorem c8_jsr_rts_witness :
    ((step jsrExample).PC =
        256 * jsrExample.memory ((jsrExample.PC + 2) % 65536) +
          jsrExample.memory ((jsrExample.PC + 1) % 65536) ∧
      (step jsrExample).memory (0x0100 + jsrExample.SP) =
        (jsrExample.PC + 2) % 65536 / 256 ∧
      (step jsrExample).memory (0x0100 + (jsrExample.SP + 255) % 256) =
        (jsrExample.PC + 2) % 256 ∧
      (step jsrExample).SP = (jsrExample.SP + 254) % 256 ∧
      ((step jsrExample).memory ((step jsrExample).PC) = 0x60 →
        (step (step jsrExample)).PC = (jsrExample.PC + 3) % 65536)) ∧
    (step (step jsrExample)).PC = (jsrExample.PC + 3) % 65536 :=
  have h := c8_jsr_rts jsrExample rfl (by decide) (by decide) (by decide)
  ⟨h, h.2.2.2.2 (by decide)⟩

/-! ## C10: opcode-table collisions -/

/-- C10: in the opcode table the indexed arithmetic variants collapse onto
the unindexed handlers — 0x75 (listed ADC zp,X) and 0x65 (ADC zp) map to
the same `adcZeroPage`, 0x71 and 0x61 to `sbcZeroPage`, 0x7D and 0x6D to
`adcAbsolute`, 0x7E and 0x6E to `sbcAbsolute` — and none of these handlers
applies the X or Y index register: updating X (or Y) before the handler
runs only carries the new value through unchanged. -/
theorem c10_table_collapse :
    instructionTable 0x75 = instructionTable 0x65 ∧
    instructionTable 0x65 = some adcZeroPage ∧
    instructionTable 0x71 = instructionTable 0x61 ∧
    instructionTable 0x61 = some sbcZeroPage ∧
    instructionTable 0x7D = instructionTable 0x6D ∧
    instructionTable 0x6D = some adcAbsolute ∧
    instructionTable 0x7E = instructionTable 0x6E ∧
    instructionTable 0x6E = some sbcAbsolute ∧
    (∀ st x, adcZeroPage { st with X := x } = { adcZeroPage st with X := x }) ∧
    (∀ st x, sbcZeroPage { st with X := x } = { sbcZeroPage st with X := x }) ∧
    (∀ st y, adcZeroPage { st with Y := y } = { adcZeroPage st with Y := y }) ∧
    (∀ st y, sbcZeroPage { st with Y := y } = { sbcZeroPage st with Y := y }) ∧
    (∀ st x, adcAbsolute { st with X := x } = { adcAbsolute st with X := x }) ∧
    (∀ st x, sbcAbsolute { st with X := x } = { sbcAbsolute st with X := x }) ∧
    (∀ st y, adcAbsolute { st with Y := y } = { adcAbsolute st with Y := y }) ∧
    (∀ st y, sbcAbsolute { st with Y := y } = { sbcAbsolute st with Y := y }) :=
  ⟨rfl, rfl, rfl, rfl, rfl, rfl, rfl, rfl,
   fun _ _ => rfl, fun _ _ => rfl, fun _ _ => rfl, fun _ _ => rfl,
   fun _ _ => rfl, fun _ _ => rfl, fun _ _ => rfl, fun _ _ => rfl⟩

/-! ## C7: PHA/PLA round trip -/

/-- C7: for every state with a byte accumulator and byte stack pointer
(including SP = 0, where the pointer wraps), PHA followed by PLA restores
A and SP to their pre-push values, with Z and N updated from A on the
pull. -/
theorem c7_pha_pla : ∀ st : CPU, st.A < 256 → st.SP < 256 →
    (pla (pha st)).A = st.A ∧ (pla (pha st)).SP = st.SP ∧
    (pla (pha st)).flags.Z = (if st.A = 0 then 1 else 0) ∧
    (pla (pha st)).flags.N = (if st.A &&& 0x80 ≠ 0 then 1 else 0) := by
  intro st hA hSP
  have hcond : ¬(0x2000 ≤ (0x0100 + st.SP) % 65536 ∧
      (0x0100 + st.SP) % 65536 ≤ 0x3FFF) := by omega
  have hval : (((st.A : Int)) % 256).toNat = st.A := by omega
  simp only [pha, pla, pushByte, pullByte, readByte, writeByte,
    updateZeroNegativeFlags, and65535, and255]
  rw [if_neg hcond]
  have hSP2 : ((((st.SP : Int) - 1) % 256).toNat + 1) % 256 = st.SP := by omega
  rw [hSP2]
  simp only [Function.update_same, hval]
  exact ⟨trivial, trivial, trivial, trivial⟩

/-- Witness for C7 with `A = 0x42` and `SP = 0` (stack wraparound). -/
theorem c7_pha_pla_witness :
    (pla (pha phaExample)).A = phaExample.A ∧
    (pla (pha phaExample)).SP = phaExample.SP ∧
    (pla (pha phaExample)).flags.Z = (if phaExample.A = 0 then 1 else 0) ∧
    (pla (pha phaExample)).flags.N =
      (if phaExample.A &&& 0x80 ≠ 0 then 1 else 0) :=
  c7_pha_pla phaExample (by decide) (by decide)

/-! ## C9: register-width invariants -/

/-- A byte mask keeps a value below 256. -/
theorem and_byte_lt (x : Nat) : x &&& 0xFF < 256 := by
  rw [and255]; omega

/-- A word mask keeps a value below 2^16. -/
theorem and_word_lt (x : Nat) : x &&& 0xFFFF < 65536 := by
  rw [and65535]; omega

/-- The `Int` byte mask of the negative-capable paths lands in a byte. -/
theorem emod_byte_lt (x : Int) : (x % 256).toNat < 256 := by omega

/-- The `Int` word mask of the branch paths lands in a 16-bit word. -/
theorem emod_word_lt (x : Int) : (x % 65536).toNat < 65536 := by omega

/-- Disjunction of two bytes is a byte. -/
theorem or_byte_lt {a b : Nat} (ha : a < 256) (hb : b < 256) :
    a ||| b < 256 := by
  have h := Nat.or_lt_two_pow (x := a) (y := b) (n := 8)
  norm_num at h
  exact h ha hb

/-- Exclusive disjunction of two bytes is a byte. -/
theorem xor_byte_lt {a b : Nat} (ha : a < 256) (hb : b < 256) :
    a ^^^ b < 256 := by
  have h := Nat.xor_lt_two_pow (x := a) (y := b) (n := 8)
  norm_num at h
  exact h ha hb

/-- A high byte shifted and or-ed with a low byte is a 16-bit word. -/
theorem lor_word_lt {hi lo : Nat} (hh : hi < 256) (hl : lo < 256) :
    (hi <<< 8) ||| lo < 65536 := by
  rw [lor_byte _ hl]; omega

/-- `fetchByte` preserves well-formedness and yields a byte. -/
theorem wf_fetchByte (st : CPU) (h : Wf st) :
    Wf (fetchByte st).2 ∧ (fetchByte st).1 < 256 := by
  obtain ⟨hA, hX, hY, hSP, hPC, hM⟩ := h
  exact ⟨⟨hA, hX, hY, hSP, and_word_lt _, hM⟩, hM _⟩

/-- `fetchWord` preserves well-formedness and yields a 16-bit word. -/
theorem wf_fetchWord (st : CPU) (h : Wf st) :
    Wf (fetchWord st).2 ∧ (fetchWord st).1 < 65536 := by
  obtain ⟨h1, hv1⟩ := wf_fetchByte st h
  obtain ⟨h2, hv2⟩ := wf_fetchByte (fetchByte st).2 h1
  exact ⟨h2, lor_word_lt hv2 hv1⟩

/-- `fetchSignedByte` preserves well-formedness. -/
theorem wf_fetchSignedByte (st : CPU) (h : Wf st) :
    Wf (fetchSignedByte st).2 :=
  (wf_fetchByte st h).1

/-- `writeByte` preserves well-formedness: the stored value is masked to a
byte, and the PPU branch stores nothing. -/
theorem wf_writeByte (st : CPU) (addr : Nat) (val : Int) (h : Wf st) :
    Wf (writeByte st addr val) := by
  obtain ⟨hA, hX, hY, hSP, hPC, hM⟩ := h
  simp only [writeByte]
  split
  · exact ⟨hA, hX, hY, hSP, hPC, hM⟩
  · refine ⟨hA, hX, hY, hSP, hPC, fun a => ?_⟩
    dsimp only
    rcases eq_or_ne a (addr &&& 0xFFFF) with rfl | hne
    · rw [Function.update_same]; omega
    · rw [Function.update_noteq hne]; exact hM a

/-- `pushByte` preserves well-formedness. -/
theorem wf_pushByte (st : CPU) (v : Int) (h : Wf st) : Wf (pushByte st v) := by
  have hw := wf_writeByte st (0x0100 + st.SP) v h
  obtain ⟨hA, hX, hY, hSP, hPC, hM⟩ := hw
  exact ⟨hA, hX, hY, emod_byte_lt _, hPC, hM⟩

/-- `pullByte` preserves well-formedness and yields a byte. -/
theorem wf_pullByte (st : CPU) (h : Wf st) :
    Wf (pullByte st).2 ∧ (pullByte st).1 < 256 := by
  obtain ⟨hA, hX, hY, hSP, hPC, hM⟩ := h
  exact ⟨⟨hA, hX, hY, and_byte_lt _, hPC, hM⟩, hM _⟩

/-- `pushWord` preserves well-formedness. -/
theorem wf_pushWord (st : CPU) (v : Int) (h : Wf st) : Wf (pushWord st v) :=
  wf_pushByte _ _ (wf_pushByte _ _ h)

/-- `pullWord` preserves well-formedness and yields a 16-bit word. -/
theorem wf_pullWord (st : CPU) (h : Wf st) :
    Wf (pullWord st).2 ∧ (pullWord st).1 < 65536 := by
  obtain ⟨h1, hv1⟩ := wf_pullByte st h
  obtain ⟨h2, hv2⟩ := wf_pullByte (pullByte st).2 h1
  exact ⟨h2, lor_word_lt hv2 hv1⟩

theorem wf_ldaImmediate (st : CPU) (h : Wf st) : Wf (ldaImmediate st) := by
  obtain ⟨⟨hA, hX, hY, hSP, hPC, hM⟩, hv⟩ := wf_fetchByte st h
  exact ⟨hv, hX, hY, hSP, hPC, hM⟩

theorem wf_ldxImmediate (st : CPU) (h : Wf st) : Wf (ldxImmediate st) := by
  obtain ⟨⟨hA, hX, hY, hSP, hPC, hM⟩, hv⟩ := wf_fetchByte st h
  exact ⟨hA, hv, hY, hSP, hPC, hM⟩

theorem wf_ldyImmediate (st : CPU) (h : Wf st) : Wf (ldyImmediate st) := by
  obtain ⟨⟨hA, hX, hY, hSP, hPC, hM⟩, hv⟩ := wf_fetchByte st h
  exact ⟨hA, hX, hv, hSP, hPC, hM⟩

theorem wf_staAbsolute (st : CPU) (h : Wf st) : Wf (staAbsolute st) :=
  wf_writeByte _ _ _ (wf_fetchWord st h).1

theorem wf_brk (st : CPU) (h : Wf st) : Wf (brk st) := h

theorem wf_inx (st : CPU) (h : Wf st) : Wf (inx st) := by
  obtain ⟨hA, hX, hY, hSP, hPC, hM⟩ := h
  exact ⟨hA, and_byte_lt _, hY, hSP, hPC, hM⟩

theorem wf_iny (st : CPU) (h : Wf st) : Wf (iny st) := by
  obtain ⟨hA, hX, hY, hSP, hPC, hM⟩ := h
  exact ⟨hA, hX, and_byte_lt _, hSP, hPC, hM⟩

theorem wf_dex (st : CPU) (h : Wf st) : Wf (dex st) := by
  obtain ⟨hA, hX, hY, hSP, hPC, hM⟩ := h
  exact ⟨hA, emod_byte_lt _, hY, hSP, hPC, hM⟩

theorem wf_dey (st : CPU) (h : Wf st) : Wf (dey st) := by
  obtain ⟨hA, hX, hY, hSP, hPC, hM⟩ := h
  exact ⟨hA, hX, emod_byte_lt _, hSP, hPC, hM⟩

theorem wf_jmpAbsolute (st : CPU) (h : Wf st) : Wf (jmpAbsolute st) := by
  have hw := wf_fetchWord st h
  obtain ⟨hA, hX, hY, hSP, hPC, hM⟩ := hw.1
  exact ⟨hA, hX, hY, hSP, hw.2, hM⟩

theorem wf_nop (st : CPU) (h : Wf st) : Wf (nop st) := h

theorem wf_staZeroPage (st : CPU) (h : Wf st) : Wf (staZeroPage st) :=
  wf_writeByte _ _ _ (wf_fetchByte st h).1

theorem wf_stxZeroPage (st : CPU) (h : Wf st) : Wf (stxZeroPage st) :=
  wf_writeByte _ _ _ (wf_fetchByte st h).1

theorem wf_styZeroPage (st : CPU) (h : Wf st) : Wf (styZeroPage st) :=
  wf_writeByte _ _ _ (wf_fetchByte st h).1

theorem wf_adcImmediate (st : CPU) (h : Wf st) : Wf (adcImmediate st) := by
  obtain ⟨⟨hA, hX, hY, hSP, hPC, hM⟩, hv⟩ := wf_fetchByte st h
  exact ⟨and_byte_lt _, hX, hY, hSP, hPC, hM⟩

theorem wf_sbcImmediate (st : CPU) (h : Wf st) : Wf (sbcImmediate st) := by
  obtain ⟨⟨hA, hX, hY, hSP, hPC, hM⟩, hv⟩ := wf_fetchByte st h
  exact ⟨emod_byte_lt _, hX, hY, hSP, hPC, hM⟩

theorem wf_andImmediate (st : CPU) (h : Wf st) : Wf (andImmediate st) := by
  obtain ⟨⟨hA, hX, hY, hSP, hPC, hM⟩, hv⟩ := wf_fetchByte st h
  exact ⟨Nat.lt_of_le_of_lt Nat.and_le_left hA, hX, hY, hSP, hPC, hM⟩

theorem wf_oraImmediate (st : CPU) (h : Wf st) : Wf (oraImmediate st) := by
  obtain ⟨⟨hA, hX, hY, hSP, hPC, hM⟩, hv⟩ := wf_fetchByte st h
  exact ⟨or_byte_lt hA hv, hX, hY, hSP, hPC, hM⟩

theorem wf_eorImmediate (st : CPU) (h : Wf st) : Wf (eorImmediate st) := by
  obtain ⟨⟨hA, hX, hY, hSP, hPC, hM⟩, hv⟩ := wf_fetchByte st h
  exact ⟨xor_byte_lt hA hv, hX, hY, hSP, hPC, hM⟩

theorem wf_cmpImmediate (st : CPU) (h : Wf st) : Wf (cmpImmediate st) :=
  (wf_fetchByte st h).1

theorem wf_bne (st : CPU) (h : Wf st) : Wf (bne st) := by
  have h2 := (wf_fetchByte st h).1
  unfold bne
  rcases hfb : fetchByte st with ⟨off, st2⟩
  rw [hfb] at h2
  obtain ⟨hA, hX, hY, hSP, hPC, hM⟩ := h2
  dsimp only
  split
  · exact ⟨hA, hX, hY, hSP, emod_word_lt _, hM⟩
  · exact ⟨hA, hX, hY, hSP, hPC, hM⟩

theorem wf_beq (st : CPU) (h : Wf st) : Wf (beq st) := by
  have h2 := (wf_fetchByte st h).1
  unfold beq
  rcases hfb : fetchByte st with ⟨off, st2⟩
  rw [hfb] at h2
  obtain ⟨hA, hX, hY, hSP, hPC, hM⟩ := h2
  dsimp only
  split
  · exact ⟨hA, hX, hY, hSP, emod_word_lt _, hM⟩
  · exact ⟨hA, hX, hY, hSP, hPC, hM⟩

theorem wf_bpl (st : CPU) (h : Wf st) : Wf (bpl st) := by
  have h2 := wf_fetchSignedByte st h
  unfold bpl
  rcases hfb : fetchSignedByte st with ⟨off, st2⟩
  rw [hfb] at h2
  obtain ⟨hA, hX, hY, hSP, hPC, hM⟩ := h2
  dsimp only
  split
  · exact ⟨hA, hX, hY, hSP, emod_word_lt _, hM⟩
  · exact ⟨hA, hX, hY, hSP, hPC, hM⟩

theorem wf_incZeroPage (st : CPU) (h : Wf st) : Wf (incZeroPage st) :=
  wf_writeByte _ _ _ (wf_fetchByte st h).1

theorem wf_decZeroPage (st : CPU) (h : Wf st) : Wf (decZeroPage st) :=
  wf_writeByte _ _ _ (wf_fetchByte st h).1

theorem wf_aslAccumulator (st : CPU) (h : Wf st) : Wf (aslAccumulator st) := by
  obtain ⟨hA, hX, hY, hSP, hPC, hM⟩ := h
  exact ⟨and_byte_lt _, hX, hY, hSP, hPC, hM⟩

theorem wf_lsrAccumulator (st : CPU) (h : Wf st) : Wf (lsrAccumulator st) := by
  obtain ⟨hA, hX, hY, hSP, hPC, hM⟩ := h
  exact ⟨and_byte_lt _, hX, hY, hSP, hPC, hM⟩

theorem wf_rolAccumulator (st : CPU) (h : Wf st) : Wf (rolAccumulator st) := by
  obtain ⟨hA, hX, hY, hSP, hPC, hM⟩ := h
  exact ⟨and_byte_lt _, hX, hY, hSP, hPC, hM⟩

theorem wf_rorAccumulator (st : CPU) (h : Wf st) : Wf (rorAccumulator st) := by
  obtain ⟨hA, hX, hY, hSP, hPC, hM⟩ := h
  exact ⟨and_byte_lt _, hX, hY, hSP, hPC, hM⟩

theorem wf_txa (st : CPU) (h : Wf st) : Wf (txa st) := by
  obtain ⟨hA, hX, hY, hSP, hPC, hM⟩ := h
  exact ⟨hX, hX, hY, hSP, hPC, hM⟩

theorem wf_tya (st : CPU) (h : Wf st) : Wf (tya st) := by
  obtain ⟨hA, hX, hY, hSP, hPC, hM⟩ := h
  exact ⟨hY, hX, hY, hSP, hPC, hM⟩

theorem wf_tax (st : CPU) (h : Wf st) : Wf (tax st) := by
  obtain ⟨hA, hX, hY, hSP, hPC, hM⟩ := h
  exact ⟨hA, hA, hY, hSP, hPC, hM⟩

theorem wf_tay (st : CPU) (h : Wf st) : Wf (tay st) := by
  obtain ⟨hA, hX, hY, hSP, hPC, hM⟩ := h
  exact ⟨hA, hX, hA, hSP, hPC, hM⟩

theorem wf_ldaZeroPage (st : CPU) (h : Wf st) : Wf (ldaZeroPage st) := by
  obtain ⟨⟨hA, hX, hY, hSP, hPC, hM⟩, hv⟩ := wf_fetchByte st h
  exact ⟨hM _, hX, hY, hSP, hPC, hM⟩

theorem wf_ldaAbsolute (st : CPU) (h : Wf st) : Wf (ldaAbsolute st) := by
  obtain ⟨hA, hX, hY, hSP, hPC, hM⟩ := (wf_fetchWord st h).1
  exact ⟨hM _, hX, hY, hSP, hPC, hM⟩

theorem wf_ldxZeroPage (st : CPU) (h : Wf st) : Wf (ldxZeroPage st) := by
  obtain ⟨⟨hA, hX, hY, hSP, hPC, hM⟩, hv⟩ := wf_fetchByte st h
  exact ⟨hA, hM _, hY, hSP, hPC, hM⟩

theorem wf_ldxAbsolute (st : CPU) (h : Wf st) : Wf (ldxAbsolute st) := by
  obtain ⟨hA, hX, hY, hSP, hPC, hM⟩ := (wf_fetchWord st h).1
  exact ⟨hA, hM _, hY, hSP, hPC, hM⟩

theorem wf_ldyZeroPage (st : CPU) (h : Wf st) : Wf (ldyZeroPage st) := by
  obtain ⟨⟨hA, hX, hY, hSP, hPC, hM⟩, hv⟩ := wf_fetchByte st h
  exact ⟨hA, hX, hM _, hSP, hPC, hM⟩

theorem wf_ldyAbsolute (st : CPU) (h : Wf st) : Wf (ldyAbsolute st) := by
  obtain ⟨hA, hX, hY, hSP, hPC, hM⟩ := (wf_fetchWord st h).1
  exact ⟨hA, hX, hM _, hSP, hPC, hM⟩

theorem wf_staAbsoluteX (st : CPU) (h : Wf st) : Wf (staAbsoluteX st) :=
  wf_writeByte _ _ _ (wf_fetchWord st h).1

theorem wf_adcZeroPage (st : CPU) (h : Wf st) : Wf (adcZeroPage st) := by
  obtain ⟨⟨hA, hX, hY, hSP, hPC, hM⟩, hv⟩ := wf_fetchByte st h
  exact ⟨and_byte_lt _, hX, hY, hSP, hPC, hM⟩

theorem wf_sbcZeroPage (st : CPU) (h : Wf st) : Wf (sbcZeroPage st) := by
  obtain ⟨⟨hA, hX, hY, hSP, hPC, hM⟩, hv⟩ := wf_fetchByte st h
  exact ⟨emod_byte_lt _, hX, hY, hSP, hPC, hM⟩

theorem wf_adcAbsolute (st : CPU) (h : Wf st) : Wf (adcAbsolute st) := by
  obtain ⟨hA, hX, hY, hSP, hPC, hM⟩ := (wf_fetchWord st h).1
  exact ⟨and_byte_lt _, hX, hY, hSP, hPC, hM⟩

theorem wf_sbcAbsolute (st : CPU) (h : Wf st) : Wf (sbcAbsolute st) := by
  obtain ⟨hA, hX, hY, hSP, hPC, hM⟩ := (wf_fetchWord st h).1
  exact ⟨emod_byte_lt _, hX, hY, hSP, hPC, hM⟩

theorem wf_pha (st : CPU) (h : Wf st) : Wf (pha st) :=
  wf_pushByte _ _ h

theorem wf_pla (st : CPU) (h : Wf st) : Wf (pla st) := by
  obtain ⟨⟨hA, hX, hY, hSP, hPC, hM⟩, hv⟩ := wf_pullByte st h
  exact ⟨hv, hX, hY, hSP, hPC, hM⟩

theorem wf_php (st : CPU) (h : Wf st) : Wf (php st) :=
  wf_pushByte _ _ h

theorem wf_plp (st : CPU) (h : Wf st) : Wf (plp st) :=
  (wf_pullByte st h).1

theorem wf_jsr (st : CPU) (h : Wf st) : Wf (jsr st) := by
  have hw := wf_fetchWord st h
  have hp := wf_pushWord (fetchWord st).2 (((fetchWord st).2.PC : Int) - 1) hw.1
  obtain ⟨hA, hX, hY, hSP, hPC, hM⟩ := hp
  exact ⟨hA, hX, hY, hSP, hw.2, hM⟩

theorem wf_rts (st : CPU) (h : Wf st) : Wf (rts st) := by
  obtain ⟨⟨hA, hX, hY, hSP, hPC, hM⟩, hv⟩ := wf_pullWord st h
  exact ⟨hA, hX, hY, hSP, and_word_lt _, hM⟩

theorem wf_bitZeroPage (st : CPU) (h : Wf st) : Wf (bitZeroPage st) :=
  (wf_fetchByte st h).1

theorem wf_ldaZeroPageX (st : CPU) (h : Wf st) : Wf (ldaZeroPageX st) := by
  obtain ⟨⟨hA, hX, hY, hSP, hPC, hM⟩, hv⟩ := wf_fetchByte st h
  exact ⟨hM _, hX, hY, hSP, hPC, hM⟩

theorem wf_aslZeroPage (st : CPU) (h : Wf st) : Wf (aslZeroPage st) :=
  wf_writeByte _ _ _ (wf_fetchByte st h).1

theorem wf_lsrZeroPage (st : CPU) (h : Wf st) : Wf (lsrZeroPage st) :=
  wf_writeByte _ _ _ (wf_fetchByte st h).1

theorem wf_txs (st : CPU) (h : Wf st) : Wf (txs st) := by
  obtain ⟨hA, hX, hY, hSP, hPC, hM⟩ := h
  exact ⟨hA, hX, hY, hX, hPC, hM⟩

theorem wf_sec (st : CPU) (h : Wf st) : Wf (sec st) := h
theorem wf_sed (st : CPU) (h : Wf st) : Wf (sed st) := h
theorem wf_sei (st : CPU) (h : Wf st) : Wf (sei st) := h
theorem wf_cld (st : CPU) (h : Wf st) : Wf (cld st) := h
theorem wf_cli (st : CPU) (h : Wf st) : Wf (cli st) := h
theorem wf_clv (st : CPU) (h : Wf st) : Wf (clv st) := h
theorem wf_clc (st : CPU) (h : Wf st) : Wf (clc st) := h

/-- Every handler reachable through the opcode table preserves
well-formedness. -/
theorem instructionTable_preserves : ∀ op f, instructionTable op = some f →
    ∀ st, Wf st → Wf (f st) := by
  intro op f hop
  unfold instructionTable at hop
  split at hop
  all_goals cases hop
  · exact wf_ldaImmediate
  · exact wf_staAbsolute
  · exact wf_brk
  · exact wf_inx
  · exact wf_iny
  · exact wf_dex
  · exact wf_dey
  · exact wf_jmpAbsolute
  · exact wf_nop
  · exact wf_ldxImmediate
  · exact wf_ldyImmediate
  · exact wf_staZeroPage
  · exact wf_stxZeroPage
  · exact wf_styZeroPage
  · exact wf_adcImmediate
  · exact wf_sbcImmediate
  · exact wf_andImmediate
  · exact wf_oraImmediate
  · exact wf_eorImmediate
  · exact wf_clc
  · exact wf_cmpImmediate
  · exact wf_bne
  · exact wf_beq
  · exact wf_incZeroPage
  · exact wf_decZeroPage
  · exact wf_aslAccumulator
  · exact wf_lsrAccumulator
  · exact wf_rolAccumulator
  · exact wf_rorAccumulator
  · exact wf_txa
  · exact wf_tya
  · exact wf_tax
  · exact wf_tay
  · exact wf_ldaZeroPage
  · exact wf_ldaAbsolute
  · exact wf_ldaZeroPageX
  · exact wf_staAbsoluteX
  · exact wf_aslZeroPage
  · exact wf_lsrZeroPage
  · exact wf_txs
  · exact wf_rts
  · exact wf_pha
  · exact wf_pla
  · exact wf_php
  · exact wf_plp
  · exact wf_bitZeroPage
  · exact wf_sec
  · exact wf_sed
  · exact wf_cld
  · exact wf_sei
  · exact wf_cli
  · exact wf_clv
  · exact wf_bpl
  · exact wf_jsr
  · exact wf_ldxZeroPage
  · exact wf_ldxAbsolute
  · exact wf_ldyZeroPage
  · exact wf_ldyAbsolute
  · exact wf_adcZeroPage
  · exact wf_adcZeroPage
  · exact wf_adcAbsolute
  · exact wf_adcAbsolute
  · exact wf_sbcZeroPage
  · exact wf_sbcZeroPage
  · exact wf_sbcAbsolute
  · exact wf_sbcAbsolute

/-- C9: `step` — the opcode fetch plus any table entry, or the
unknown-opcode branch — preserves the register-width invariant: if A, X,
Y, SP are bytes, PC is a 16-bit word and memory holds bytes beforehand,
the same bounds hold afterwards. -/
theorem c9_step_preserves_wf : ∀ st : CPU, Wf st → Wf (step st) := by
  intro st h
  obtain ⟨hA, hX, hY, hSP, hPC, hM⟩ := h
  simp only [step, fetchByte]
  cases htab : instructionTable (st.memory st.PC) with
  | none =>
      simp only [htab]
      exact ⟨hA, hX, hY, hSP, and_word_lt _, hM⟩
  | some f =>
      simp only [htab]
      exact instructionTable_preserves _ f htab _
        ⟨hA, hX, hY, hSP, and_word_lt _, hM⟩

/-- Witness for C9 at the initial state. -/
theorem c9_step_preserves_wf_witness : Wf cpu0 ∧ Wf (step cpu0) :=
  have h : Wf cpu0 := ⟨by decide, by decide, by decide, by decide, by decide,
    fun a => by norm_num [cpu0]⟩
  ⟨h, c9_step_preserves_wf cpu0 h⟩

end NES
